import Mathlib

/-!
# pusher-go-appengine: a Lean model of `pusher.go`

A shallow embedding of the package `pusher` (file `pusher.go`): the channel
name sanitizer, the per-environment credential lookups, the request signer
and the event publisher, followed by theorems about them.

Conventions of the embedding

* A Go `string` and a Go `[]byte` are both a sequence of bytes; they are
  modelled by `GoString := List Nat`, each element being one byte
  (a natural number below 256).  The conversions `string(b)` and `[]byte(s)`
  are the identity.
* A `rune` is a natural number (a Unicode code point).
* The logger, the HTTP client and the clock are the ambient context `c`;
  they are modelled by the record `Context`, and what a function does to
  them is returned as a list of `Effect`s, in program order.
* Functions that live outside the package (`common.Md5Hash`, HMAC-SHA256,
  the `integrations` constants, the `env` classifier) are fields of
  `Context`.
-/

namespace Pusher

/-! ## Strings, runes and the `range` loop -/

/-- A Go string (or byte slice): its bytes, in order. -/
abbrev GoString := List Nat

/-- A string literal of the source: the bytes of its characters (the literals of
`pusher.go` are ASCII, one byte per character). -/
def lit (s : String) : GoString := s.toList.map Char.toNat

/-- The constant `utf8.RuneError`, the replacement character U+FFFD. -/
def RuneError : Nat := 0xFFFD

/-- The table `first` of package `unicode/utf8`: information about the first byte of
a UTF-8 sequence.  `0xF0` is ASCII, `0xF1` is an invalid first byte; otherwise
the low three bits are the sequence length and the high four bits index
`acceptRanges`. -/
def first (b : Nat) : Nat :=
  if b < 0x80 then 0xF0
  else if b < 0xC2 then 0xF1
  else if b < 0xE0 then 0x02
  else if b = 0xE0 then 0x13
  else if b < 0xED then 0x03
  else if b = 0xED then 0x23
  else if b < 0xF0 then 0x03
  else if b = 0xF0 then 0x34
  else if b < 0xF4 then 0x04
  else if b = 0xF4 then 0x44
  else 0xF1

/-- The table `acceptRanges` of package `unicode/utf8`: the range of valid second
bytes, as a pair `(lo, hi)`. -/
def acceptRanges (i : Nat) : Nat × Nat :=
  match i with
  | 0 => (0x80, 0xBF)
  | 1 => (0xA0, 0xBF)
  | 2 => (0x80, 0x9F)
  | 3 => (0x90, 0xBF)
  | 4 => (0x80, 0x8F)
  | _ => (0, 0)

/-- The function `utf8.DecodeRuneInString`: the first rune of `s` and its width in bytes.
An empty string gives `(RuneError, 0)`, an invalid encoding `(RuneError, 1)`. -/
def decodeRune (s : GoString) : Nat × Nat :=
  match s with
  | [] => (RuneError, 0)
  | s0 :: t =>
    let x := first s0
    if x ≥ 0xF0 then
      (if x = 0xF0 then s0 else RuneError, 1)
    else
      let sz := x &&& 7
      let accept := acceptRanges (x >>> 4)
      if s.length < sz then (RuneError, 1)
      else
        match t with
        | [] => (RuneError, 1)
        | s1 :: t1 =>
          if s1 < accept.1 ∨ accept.2 < s1 then (RuneError, 1)
          else if sz ≤ 2 then (((s0 &&& 0x1F) <<< 6) ||| (s1 &&& 0x3F), 2)
          else
            match t1 with
            | [] => (RuneError, 1)
            | s2 :: t2 =>
              if s2 < 0x80 ∨ 0xBF < s2 then (RuneError, 1)
              else if sz ≤ 3 then
                (((s0 &&& 0x0F) <<< 12) ||| ((s1 &&& 0x3F) <<< 6) ||| (s2 &&& 0x3F), 3)
              else
                match t2 with
                | [] => (RuneError, 1)
                | s3 :: _ =>
                  if s3 < 0x80 ∨ 0xBF < s3 then (RuneError, 1)
                  else
                    (((s0 &&& 0x07) <<< 18) ||| ((s1 &&& 0x3F) <<< 12)
                      ||| ((s2 &&& 0x3F) <<< 6) ||| (s3 &&& 0x3F), 4)

/-- The conversion `string(c)` of a rune: its UTF-8 encoding (`utf8.EncodeRune`);
a surrogate or a value past U+10FFFF is encoded as U+FFFD. -/
def runeToString (c : Nat) : GoString :=
  if c ≤ 0x7F then [c]
  else if c ≤ 0x7FF then [0xC0 ||| (c >>> 6), 0x80 ||| (c &&& 0x3F)]
  else if c > 0x10FFFF ∨ (0xD800 ≤ c ∧ c ≤ 0xDFFF) then [0xEF, 0xBF, 0xBD]
  else if c ≤ 0xFFFF then
    [0xE0 ||| (c >>> 12), 0x80 ||| ((c >>> 6) &&& 0x3F), 0x80 ||| (c &&& 0x3F)]
  else
    [0xF0 ||| (c >>> 18), 0x80 ||| ((c >>> 12) &&& 0x3F),
      0x80 ||| ((c >>> 6) &&& 0x3F), 0x80 ||| (c &&& 0x3F)]

/-- The runes that `for _, c := range s` yields, in order.  Each iteration decodes one
rune at the current position and advances by its width; `fuel` bounds the
number of iterations. -/
def rangeRunes : Nat → GoString → List Nat
  | 0, _ => []
  | fuel + 1, s =>
    match s with
    | [] => []
    | _ :: _ =>
      let r := decodeRune s
      r.1 :: rangeRunes fuel (s.drop r.2)

/-- The runes of a string, as `range` enumerates them (a string of `n` bytes has at
most `n` runes). -/
def runes (s : GoString) : List Nat := rangeRunes s.length s

/-! ## `SafeChannelName` -/

/-- The condition of the `if` in `SafeChannelName`: the rune is a letter, a digit or
one of `- _ = @ , .`. -/
def allowed (c : Nat) : Bool :=
  ('a'.toNat ≤ c && c ≤ 'z'.toNat) || ('A'.toNat ≤ c && c ≤ 'Z'.toNat) ||
    ('0'.toNat ≤ c && c ≤ '9'.toNat) ||
    c == '-'.toNat || c == '_'.toNat || c == '='.toNat || c == '@'.toNat ||
    c == ','.toNat || c == '.'.toNat

/-- The loop of `SafeChannelName`: `s` is what is left of `name`, `out` the
accumulator. -/
def safeChannelNameLoop : Nat → GoString → GoString → GoString
  | 0, _, out => out
  | fuel + 1, s, out =>
    match s with
    | [] => out
    | _ :: _ =>
      let r := decodeRune s
      let c := r.1
      if allowed c then
        safeChannelNameLoop fuel (s.drop r.2) (out ++ runeToString c)
      else
        safeChannelNameLoop fuel (s.drop r.2) (out ++ lit "_")

/-- The function `SafeChannelName`. -/
def SafeChannelName (name : GoString) : GoString :=
  safeChannelNameLoop name.length name []


/-! ## The standard library: formatting, hex, JSON -/

/-- The verb `%d` of `fmt.Sprintf` on an integer: its decimal notation. -/
def fmtInt (i : Int) : GoString :=
  match i with
  | Int.ofNat n => (Nat.toDigits 10 n).map Char.toNat
  | Int.negSucc n => lit "-" ++ (Nat.toDigits 10 (n + 1)).map Char.toNat

/-- The digit table `hextable` of package `encoding/hex`, indexed. -/
def hexDigit (n : Nat) : Nat := (lit "0123456789abcdef").getD n 0

/-- The function `hex.EncodeToString`: two lowercase hexadecimal digits per byte. -/
def hexEncode (b : GoString) : GoString :=
  match b with
  | [] => []
  | v :: t => hexDigit (v >>> 4) :: hexDigit (v &&& 0x0F) :: hexEncode t

/-- A Go `error` value, identified by the text that `Error()` returns. -/
structure GoError where
  msg : GoString
deriving DecidableEq, Repr

/-- A value stored in an `interface{}`: the fragment of Go values used for payloads.
`nil` is the nil interface (the only value for which `data == nil` holds);
`nilPtr` is a nil pointer, map or slice stored in the interface; `chan` is a
channel, a type that `encoding/json` does not support. -/
inductive GoValue where
  | nil
  | nilPtr
  | bool (b : Bool)
  | int (n : Int)
  | str (s : GoString)
  | strMap (m : List (GoString × GoString))
  | slice (xs : List GoValue)
  | map (m : List (GoString × GoValue))
  | chan

/-- The loop of `encodeState.string` of package `encoding/json`, without the enclosing
quotes: the byte of a safe ASCII character is copied; the double quote and the
backslash get a backslash; newline, carriage return and tab become backslash
`n`, `r`, `t`; the other control characters and `<`, `>`, `&` become a
`u00XX` escape; an invalid UTF-8 byte becomes the escape `ufffd`; U+2028 and
U+2029 become the escapes `u2028` and `u2029`; every other rune is copied.
The escapes of control characters and of invalid bytes vary between Go releases
(later ones have short escapes for backspace and form feed as well); the
theorems below do not depend on them. -/
def jsonStringLoop : Nat → GoString → GoString
  | 0, _ => []
  | fuel + 1, s =>
    match s with
    | [] => []
    | b :: t =>
      if b < 0x80 then
        if 0x20 ≤ b ∧ b ≠ 0x5C ∧ b ≠ 0x22 ∧ b ≠ 0x3C ∧ b ≠ 0x3E ∧ b ≠ 0x26 then
          b :: jsonStringLoop fuel t
        else if b = 0x5C ∨ b = 0x22 then 0x5C :: b :: jsonStringLoop fuel t
        else if b = 0x0A then lit "\x5cn" ++ jsonStringLoop fuel t
        else if b = 0x0D then lit "\x5cr" ++ jsonStringLoop fuel t
        else if b = 0x09 then lit "\x5ct" ++ jsonStringLoop fuel t
        else lit "\x5cu00" ++ [hexDigit (b >>> 4), hexDigit (b &&& 0x0F)] ++ jsonStringLoop fuel t
      else
        let r := decodeRune s
        if r.1 = RuneError ∧ r.2 = 1 then lit "\x5cufffd" ++ jsonStringLoop fuel t
        else if r.1 = 0x2028 ∨ r.1 = 0x2029 then
          lit "\x5cu202" ++ [hexDigit (r.1 &&& 0x0F)] ++ jsonStringLoop fuel (s.drop r.2)
        else s.take r.2 ++ jsonStringLoop fuel (s.drop r.2)

/-- The JSON encoding of a Go string (`encodeState.string`): the escaped text
between double quotes. -/
def jsonString (s : GoString) : GoString :=
  lit "\x22" ++ jsonStringLoop s.length s ++ lit "\x22"

/-- Bytewise order of two strings (the order in which `encoding/json` sorts map keys). -/
def strLe : GoString → GoString → Bool
  | [], _ => true
  | _ :: _, [] => false
  | a :: s, b :: t => if a < b then true else if b < a then false else strLe s t

/-- Insertion of a key/value pair into a list sorted by key. -/
def insertByKey (p : GoString × GoString) : List (GoString × GoString) → List (GoString × GoString)
  | [] => [p]
  | q :: t => if strLe p.1 q.1 then p :: q :: t else q :: insertByKey p t

/-- Sorting of key/value pairs by key. -/
def sortByKey : List (GoString × GoString) → List (GoString × GoString)
  | [] => []
  | p :: t => insertByKey p (sortByKey t)

/-- The members of a JSON object or the elements of an array, separated by commas. -/
def joinComma : List GoString → GoString
  | [] => []
  | [x] => x
  | x :: y :: t => x ++ lit "," ++ joinComma (y :: t)

/-- A JSON object, written out: each key is encoded as a string, followed by a colon
and the already encoded value. -/
def renderObject (fields : List (GoString × GoString)) : GoString :=
  lit "\x7b" ++ joinComma (fields.map (fun kv => jsonString kv.1 ++ lit ":" ++ kv.2)) ++ lit "\x7d"

mutual

/-- The function `json.Marshal` on a value of the fragment `GoValue`. -/
def jsonMarshal : GoValue → Except GoError GoString
  | GoValue.nil => Except.ok (lit "null")
  | GoValue.nilPtr => Except.ok (lit "null")
  | GoValue.bool b => Except.ok (if b then lit "true" else lit "false")
  | GoValue.int n => Except.ok (fmtInt n)
  | GoValue.str s => Except.ok (jsonString s)
  | GoValue.strMap m =>
    Except.ok (renderObject (sortByKey (m.map (fun kv => (kv.1, jsonString kv.2)))))
  | GoValue.slice xs =>
    match jsonMarshalList xs with
    | Except.error e => Except.error e
    | Except.ok parts => Except.ok (lit "[" ++ joinComma parts ++ lit "]")
  | GoValue.map m =>
    match jsonMarshalFields m with
    | Except.error e => Except.error e
    | Except.ok fields => Except.ok (renderObject (sortByKey fields))
  | GoValue.chan => Except.error ⟨lit "json: unsupported type: chan int"⟩

/-- The encoding of the elements of a slice, in order. -/
def jsonMarshalList : List GoValue → Except GoError (List GoString)
  | [] => Except.ok []
  | v :: t =>
    match jsonMarshal v with
    | Except.error e => Except.error e
    | Except.ok x =>
      match jsonMarshalList t with
      | Except.error e => Except.error e
      | Except.ok xs => Except.ok (x :: xs)

/-- The encoding of the values of a map, each with its key. -/
def jsonMarshalFields : List (GoString × GoValue) → Except GoError (List (GoString × GoString))
  | [] => Except.ok []
  | (k, v) :: t =>
    match jsonMarshal v with
    | Except.error e => Except.error e
    | Except.ok x =>
      match jsonMarshalFields t with
      | Except.error e => Except.error e
      | Except.ok xs => Except.ok ((k, x) :: xs)

end

/-! ## The ambient context -/

/-- The constants of package `integrations` that `pusher.go` reads: one key, one
application id and one secret per environment. -/
structure Integrations where
  PusherDevKey : GoString
  PusherProdKey : GoString
  PusherStagingKey : GoString
  PusherDevAppId : Int
  PusherProdAppId : Int
  PusherStagingAppId : Int
  PusherDevSecret : GoString
  PusherProdSecret : GoString
  PusherStagingSecret : GoString

/-- An `*http.Response` as far as `triggerEvent` reads it: the status code and what
`ioutil.ReadAll(resp.Body)` returns. -/
structure Response where
  StatusCode : Int
  Body : Except GoError GoString

/-- The context `c` of a call together with the packages the file imports: the
environment classifier (`env.IsLocal()`, `env.IsProd(c)`), the constants of
`integrations`, the clock (`common.Now().Unix()`), `common.Md5Hash`,
HMAC-SHA256 (`hmac.New(sha256.New, key)`, `Write`, `Sum(nil)`: key, then
message, to digest) and the HTTP client (`urlfetch.Client(c).Post`: URL,
content type, body). -/
structure Context where
  IsLocal : Bool
  IsProd : Bool
  integrations : Integrations
  Now : Int
  Md5Hash : GoString → GoString
  hmacSha256 : GoString → GoString → GoString
  Post : GoString → GoString → GoString → Except GoError Response

/-- What a function does to its context, one entry per call: a message logged with
`c.Debugf` or `c.Errorf` (after formatting), a request sent with
`client.Post`, the deferred `resp.Body.Close()`. -/
inductive Effect where
  | Debugf (msg : GoString)
  | Errorf (msg : GoString)
  | Post (url contentType body : GoString)
  | Close
deriving DecidableEq, Repr

/-- Whether an effect is a request sent with `client.Post`. -/
def Effect.isPost : Effect → Bool
  | Effect.Post _ _ _ => true
  | _ => false

/-- Whether an effect is a message logged with `c.Errorf`. -/
def Effect.isErrorf : Effect → Bool
  | Effect.Errorf _ => true
  | _ => false

/-! ## The package `pusher` -/

/-- The struct `pusherEvent`; the tags of its fields are in `pusherEventFields`. -/
structure pusherEvent where
  Name : GoString
  Data : GoValue
  Channel : GoString
  SocketId : GoString

/-- The constant `noSocketId`. -/
def noSocketId : GoString := lit ""

/-- The constant `baseUrl`. -/
def baseUrl : GoString := lit "https://api.pusherapp.com"

/-- The members that `json.Marshal` writes for a `pusherEvent`, in the order of the
struct: `name`, `data`, `channel`, and `socket_id` unless it is the empty
string (`omitempty`).  Each value is already encoded. -/
def pusherEventFields (e : pusherEvent) : Except GoError (List (GoString × GoString)) :=
  match jsonMarshal e.Data with
  | Except.error err => Except.error err
  | Except.ok data =>
    Except.ok
      ([(lit "name", jsonString e.Name), (lit "data", data), (lit "channel", jsonString e.Channel)]
        ++ (if e.SocketId.length = 0 then [] else [(lit "socket_id", jsonString e.SocketId)]))

/-- The function `json.Marshal` on a `pusherEvent`. -/
def jsonMarshalEvent (e : pusherEvent) : Except GoError GoString :=
  match pusherEventFields e with
  | Except.error err => Except.error err
  | Except.ok fields => Except.ok (renderObject fields)

/-- The function `AppKey`. -/
def AppKey (c : Context) : GoString :=
  if c.IsLocal then c.integrations.PusherDevKey
  else if c.IsProd then c.integrations.PusherProdKey
  else c.integrations.PusherStagingKey

/-- The function `appId`. -/
def appId (c : Context) : Int :=
  if c.IsLocal then c.integrations.PusherDevAppId
  else if c.IsProd then c.integrations.PusherProdAppId
  else c.integrations.PusherStagingAppId

/-- The function `appSecret`. -/
def appSecret (c : Context) : GoString :=
  if c.IsLocal then c.integrations.PusherDevSecret
  else if c.IsProd then c.integrations.PusherProdSecret
  else c.integrations.PusherStagingSecret

/-- The function `appPath`. -/
def appPath (c : Context) : GoString :=
  lit "/apps/" ++ fmtInt (appId c)

/-- The function `appUrl`. -/
def appUrl (c : Context) : GoString :=
  baseUrl ++ appPath c

/-- The function `SignWithSecret`: the signature, and the debug line it logs. -/
def SignWithSecret (c : Context) (s : GoString) : GoString × List Effect :=
  let key := appSecret c
  (hexEncode (c.hmacSha256 key s),
    [Effect.Debugf (lit "Pusher signing " ++ s ++ lit " with key " ++ key)])

/-- The function `authParams`: the query string, and the effects of the call of
`SignWithSecret`. -/
def authParams (c : Context) (path : GoString) (body : GoString) : GoString × List Effect :=
  let hash := c.Md5Hash body
  let params := lit "auth_key=" ++ AppKey c ++ lit "&auth_timestamp=" ++ fmtInt c.Now
    ++ lit "&auth_version=1.0&body_md5=" ++ hash
  let key := lit "POST\n" ++ path ++ lit "\n" ++ params
  let sig := SignWithSecret c key
  let params := params ++ lit "&auth_signature=" ++ sig.1
  (params, sig.2)

/-- Lines 62 to 64 of `triggerEvent`: `if data == nil { data = map[string]string{} }`. -/
def orEmptyObject (data : GoValue) : GoValue :=
  match data with
  | GoValue.nil => GoValue.strMap []
  | v => v

/-- Lines 71 to 76 of `triggerEvent`: the envelope `e`, whose `Data` is the string
`string(dataBytes)`. -/
def envelope (channel event dataBytes socketId : GoString) : pusherEvent :=
  { Channel := channel, Name := event, SocketId := socketId, Data := GoValue.str dataBytes }

/-- The function `triggerEvent`: the error it returns (`none` is `nil`) and its
effects in program order. -/
def triggerEvent (c : Context) (channel event : GoString) (data : GoValue)
    (socketId : GoString) : Option GoError × List Effect :=
  let data := orEmptyObject data
  match jsonMarshal data with
  | Except.error err => (some err, [])
  | Except.ok dataBytes =>
    let e := envelope channel event dataBytes socketId
    match jsonMarshalEvent e with
    | Except.error err => (some err, [])
    | Except.ok body =>
      let eventsPath := appPath c ++ lit "/events"
      let params := authParams c eventsPath body
      let url := (appUrl c ++ lit "/events") ++ lit "?" ++ params.1
      let sent := params.2 ++ [Effect.Post url (lit "application/json") body]
      match c.Post url (lit "application/json") body with
      | Except.error err =>
        (some err, sent ++ [Effect.Errorf (lit "Failed sending to pusher: " ++ err.msg)])
      | Except.ok resp =>
        match resp.Body with
        | Except.error err => (some err, sent ++ [Effect.Close])
        | Except.ok res =>
          if resp.StatusCode ≠ 200 then
            (none, sent ++ [Effect.Errorf (lit "Unexpected status code: "
              ++ fmtInt resp.StatusCode ++ lit " with response: " ++ res), Effect.Close])
          else
            (none, sent ++ [Effect.Close])

/-- The function `TriggerEvent`. -/
def TriggerEvent (c : Context) (channel event : GoString) (data : GoValue) :
    Option GoError × List Effect :=
  triggerEvent c channel event data noSocketId

/-- The function `TriggerEventExcluding`. -/
def TriggerEventExcluding (c : Context) (channel event : GoString) (data : GoValue)
    (socketId : GoString) : Option GoError × List Effect :=
  triggerEvent c channel event data socketId

/-! ## The contract, in the words of the specification -/

/-- What `SafeChannelName` is specified to do to one character: keep it when it is
allowed, replace it with `_` otherwise. -/
def sanitizeRune (c : Nat) : Nat := if allowed c then c else '_'.toNat

/-- The query string before the signature, as specified:
`auth_key=<key>&auth_timestamp=<unix_seconds>&auth_version=1.0&body_md5=<md5>`. -/
def specQuery (key : GoString) (timestamp : Int) (bodyMd5 : GoString) : GoString :=
  lit "auth_key=" ++ key ++ lit "&auth_timestamp=" ++ fmtInt timestamp
    ++ lit "&auth_version=1.0&body_md5=" ++ bodyMd5

/-- The canonical string that is signed, as specified: method, path and query, one per
line, the method being `POST`. -/
def specCanonical (path query : GoString) : GoString :=
  lit "POST\n" ++ path ++ lit "\n" ++ query

/-- The path of the events endpoint, as specified: `/apps/<appId>/events`. -/
def specEventsPath (id : Int) : GoString :=
  lit "/apps/" ++ fmtInt id ++ lit "/events"

/-! ## Concrete contexts, for the examples -/

/-- Sample constants: the three environments have different values. -/
def sampleIntegrations : Integrations :=
  { PusherDevKey := lit "dk", PusherProdKey := lit "pk", PusherStagingKey := lit "sk",
    PusherDevAppId := 1, PusherProdAppId := 2, PusherStagingAppId := 3,
    PusherDevSecret := lit "ds", PusherProdSecret := lit "ps", PusherStagingSecret := lit "ss" }

/-- A local context whose transport answers every request with `r`; the two hash
functions are stand-ins with a fixed result. -/
def sampleContext (r : Except GoError Response) : Context :=
  { IsLocal := true, IsProd := false, integrations := sampleIntegrations,
    Now := 1400000000, Md5Hash := fun _ => lit "md5", hmacSha256 := fun _ _ => [0xAB],
    Post := fun _ _ _ => r }


/-- The payload `{"text":"hi"}`. -/
def sampleData : GoValue := GoValue.map [(lit "text", GoValue.str (lit "hi"))]

/-- The serialisation of `sampleData`. -/
def sampleDataBytes : GoString := lit "\x7b\x22text\x22:\x22hi\x22\x7d"

/-- The URL of the request that `triggerEvent` sends in a `sampleContext`. -/
def sampleUrl : GoString :=
  lit "https://api.pusherapp.com/apps/1/events?auth_key=dk&auth_timestamp=1400000000&auth_version=1.0&body_md5=md5&auth_signature=ab"

/-- The body of the request for the event `e` on the channel `ch`, no payload and no
socket id: `{"name":"e","data":"{}","channel":"ch"}`. -/
def sampleBody : GoString :=
  lit "\x7b\x22name\x22:\x22e\x22,\x22data\x22:\x22\x7b\x7d\x22,\x22channel\x22:\x22ch\x22\x7d"

/-- A response with status 403 and body `no`. -/
def sampleRejection : Response := { StatusCode := 403, Body := Except.ok (lit "no") }

/-- A response with status 200 whose body cannot be read. -/
def sampleTruncated : Response :=
  { StatusCode := 200, Body := Except.error { msg := lit "unexpected EOF" } }

/-- A transport error. -/
def sampleFailure : GoError := { msg := lit "connection refused" }

/-- A response with status 403 whose body cannot be read. -/
def sampleTruncatedRejection : Response :=
  { StatusCode := 403, Body := Except.error { msg := lit "urlfetch: truncated body" } }

/-! ## Lemmas on runes and on the loop of `SafeChannelName` -/

theorem allowed_lt (c : Nat) (h : allowed c = true) : c < 0x80 := by
  simp only [allowed, Bool.or_eq_true, Bool.and_eq_true, decide_eq_true_eq, beq_iff_eq] at h
  have e1 : 'z'.toNat = 122 := by decide
  have e2 : 'Z'.toNat = 90 := by decide
  have e3 : '9'.toNat = 57 := by decide
  have e4 : '-'.toNat = 45 := by decide
  have e5 : '_'.toNat = 95 := by decide
  have e6 : '='.toNat = 61 := by decide
  have e7 : '@'.toNat = 64 := by decide
  have e8 : ','.toNat = 44 := by decide
  have e9 : '.'.toNat = 46 := by decide
  omega

theorem allowed_underscore : allowed '_'.toNat = true := by decide

theorem allowed_sanitizeRune (c : Nat) : allowed (sanitizeRune c) = true := by
  unfold sanitizeRune
  split
  · assumption
  · exact allowed_underscore

theorem sanitizeRune_of_allowed (c : Nat) (h : allowed c = true) : sanitizeRune c = c := by
  simp [sanitizeRune, h]

theorem runeToString_ascii (c : Nat) (h : c < 0x80) : runeToString c = [c] := by
  have : c ≤ 0x7F := by omega
  simp [runeToString, this]

theorem first_ascii (b : Nat) (h : b < 0x80) : first b = 0xF0 := by
  simp [first, h]

theorem decodeRune_ascii (b : Nat) (t : GoString) (h : b < 0x80) :
    decodeRune (b :: t) = (b, 1) := by
  simp [decodeRune, first_ascii b h]

theorem decodeRune_width_pos (b : Nat) (t : GoString) : 1 ≤ (decodeRune (b :: t)).2 := by
  unfold decodeRune
  simp only
  repeat' split
  all_goals simp

theorem decodeRune_width_le (b : Nat) (t : GoString) :
    (decodeRune (b :: t)).2 ≤ (b :: t).length := by
  unfold decodeRune
  simp only
  repeat' split
  all_goals simp

theorem rangeRunes_length_le (fuel : Nat) (s : GoString) :
    (rangeRunes fuel s).length ≤ fuel := by
  induction fuel generalizing s with
  | zero => simp [rangeRunes]
  | succ n ih =>
    cases s with
    | nil => simp [rangeRunes]
    | cons b t =>
      simp only [rangeRunes, List.length_cons]
      exact Nat.succ_le_succ (ih _)

theorem drop_decodeRune_length (b : Nat) (t : GoString) :
    ((b :: t).drop (decodeRune (b :: t)).2).length ≤ t.length := by
  have h := decodeRune_width_pos b t
  simp only [List.length_drop, List.length_cons]
  omega

/-- Fuel adequacy of the `range` loop: any fuel of at least the length of the string
gives the same runes. -/
theorem rangeRunes_fuel (fuel : Nat) (s : GoString) (h : s.length ≤ fuel) :
    rangeRunes fuel s = runes s := by
  unfold runes
  induction fuel using Nat.strong_induction_on generalizing s with
  | _ n ih =>
    cases s with
    | nil => cases n <;> simp [rangeRunes]
    | cons b t =>
      cases n with
      | zero => simp at h
      | succ m =>
        simp only [List.length_cons] at h
        have hd := drop_decodeRune_length b t
        simp only [rangeRunes, List.length_cons]
        congr 1
        rw [ih m (by omega) _ (by omega)]
        by_cases ht : t.length = 0
        · have : ((b :: t).drop (decodeRune (b :: t)).2) = [] := by
            apply List.eq_nil_of_length_eq_zero; omega
          rw [this]; cases t.length <;> simp [rangeRunes]
        · exact (ih t.length (by omega) _ hd).symm

theorem safeChannelNameLoop_eq (fuel : Nat) (s out : GoString) :
    safeChannelNameLoop fuel s out = out ++ (rangeRunes fuel s).map sanitizeRune := by
  induction fuel generalizing s out with
  | zero => simp [safeChannelNameLoop, rangeRunes]
  | succ n ih =>
    cases s with
    | nil => simp [safeChannelNameLoop, rangeRunes]
    | cons b t =>
      simp only [safeChannelNameLoop, rangeRunes, List.map_cons]
      split
      · rename_i hc
        rw [ih, runeToString_ascii _ (allowed_lt _ hc), sanitizeRune_of_allowed _ hc]
        simp
      · rename_i hc
        rw [ih]
        simp [sanitizeRune, hc, lit]

theorem SafeChannelName_eq_map (name : GoString) :
    SafeChannelName name = (runes name).map sanitizeRune := by
  simp [SafeChannelName, safeChannelNameLoop_eq, runes]

theorem runes_ascii (s : GoString) (h : ∀ b ∈ s, b < 0x80) : runes s = s := by
  induction s with
  | nil => rfl
  | cons b t ih =>
    have hb : b < 0x80 := h b (by simp)
    have ht : ∀ b ∈ t, b < 0x80 := fun x hx => h x (by simp [hx])
    unfold runes
    simp only [List.length_cons, rangeRunes, decodeRune_ascii b t hb, List.drop_succ_cons,
      List.drop_zero]
    congr 1
    exact ih ht

theorem or_lt_128 (a b : Nat) (h : a ||| b < 128) : a < 128 ∧ b < 128 := by
  have key : ∀ i, 7 ≤ i → (a ||| b).testBit i = false := by
    intro i hi
    apply Nat.testBit_lt_two_pow
    calc a ||| b < 2 ^ 7 := h
      _ ≤ 2 ^ i := Nat.pow_le_pow_right (by decide) hi
  constructor
  · apply Nat.lt_pow_two_of_testBit (n := 7)
    intro i hi
    have := key i hi
    rw [Nat.testBit_or, Bool.or_eq_false_iff] at this
    exact this.1
  · apply Nat.lt_pow_two_of_testBit (n := 7)
    intro i hi
    have := key i hi
    rw [Nat.testBit_or, Bool.or_eq_false_iff] at this
    exact this.2

theorem and_31 (x : Nat) : x &&& 0x1F = x % 32 := Nat.and_pow_two_sub_one_eq_mod x 5
theorem and_63 (x : Nat) : x &&& 0x3F = x % 64 := Nat.and_pow_two_sub_one_eq_mod x 6
theorem and_15 (x : Nat) : x &&& 0x0F = x % 16 := Nat.and_pow_two_sub_one_eq_mod x 4
theorem and_7 (x : Nat) : x &&& 0x07 = x % 8 := Nat.and_pow_two_sub_one_eq_mod x 3

theorem or_lt_128_iff (a b : Nat) : a ||| b < 128 ↔ a < 128 ∧ b < 128 :=
  ⟨or_lt_128 a b, fun h => @Nat.or_lt_two_pow a b 7 h.1 h.2⟩

theorem decodeRune_invalid (b : Nat) (t : GoString) (h : first b = 0xF1) :
    decodeRune (b :: t) = (RuneError, 1) := by
  simp [decodeRune, h]

set_option maxHeartbeats 4000000 in
theorem decodeRune_ge_of_first (b : Nat) (t : GoString) (x : Nat) (h : first b = x)
    (hx : (x = 0x02 ∧ 0xC2 ≤ b ∧ b < 0xE0) ∨ (x = 0x13 ∧ b = 0xE0) ∨
      (x = 0x03 ∧ 0xE1 ≤ b ∧ b < 0xF0) ∨ (x = 0x23 ∧ b = 0xED) ∨ (x = 0x34 ∧ b = 0xF0) ∨
      (x = 0x04 ∧ 0xF1 ≤ b ∧ b < 0xF4) ∨ (x = 0x44 ∧ b = 0xF4)) :
    0x80 ≤ (decodeRune (b :: t)).1 := by
  have a1 : (0x02 &&& 7) = 2 ∧ (0x02 >>> 4) = 0 := by decide
  have a2 : (0x13 &&& 7) = 3 ∧ (0x13 >>> 4) = 1 := by decide
  have a3 : (0x03 &&& 7) = 3 ∧ (0x03 >>> 4) = 0 := by decide
  have a4 : (0x23 &&& 7) = 3 ∧ (0x23 >>> 4) = 2 := by decide
  have a5 : (0x34 &&& 7) = 4 ∧ (0x34 >>> 4) = 3 := by decide
  have a6 : (0x04 &&& 7) = 4 ∧ (0x04 >>> 4) = 0 := by decide
  have a7 : (0x44 &&& 7) = 4 ∧ (0x44 >>> 4) = 4 := by decide
  rcases hx with ⟨rfl, hb⟩ | ⟨rfl, hb⟩ | ⟨rfl, hb⟩ | ⟨rfl, hb⟩ | ⟨rfl, hb⟩ | ⟨rfl, hb⟩ | ⟨rfl, hb⟩
  all_goals
    simp only [decodeRune, h, a1, a2, a3, a4, a5, a6, a7, acceptRanges]
    repeat' split
    all_goals first
      | (show 128 ≤ RuneError; decide)
      | (by_contra hlt
         simp only [not_le, or_lt_128_iff, Nat.shiftLeft_eq, and_31, and_63, and_15, and_7] at hlt
         omega)

theorem first_cases (b : Nat) (hb : 0x80 ≤ b) :
    first b = 0xF1 ∨ (first b = 0x02 ∧ 0xC2 ≤ b ∧ b < 0xE0) ∨ (first b = 0x13 ∧ b = 0xE0) ∨
      (first b = 0x03 ∧ 0xE1 ≤ b ∧ b < 0xF0) ∨ (first b = 0x23 ∧ b = 0xED) ∨
      (first b = 0x34 ∧ b = 0xF0) ∨ (first b = 0x04 ∧ 0xF1 ≤ b ∧ b < 0xF4) ∨
      (first b = 0x44 ∧ b = 0xF4) := by
  unfold first
  split_ifs <;> simp <;> omega

theorem decodeRune_ge (b : Nat) (t : GoString) (hb : 0x80 ≤ b) :
    0x80 ≤ (decodeRune (b :: t)).1 := by
  rcases first_cases b hb with h1 | h
  · rw [decodeRune_invalid b t h1]; decide
  · exact decodeRune_ge_of_first b t (first b) rfl h

theorem runes_cons_ascii (b : Nat) (t : GoString) (hb : b < 0x80) :
    runes (b :: t) = b :: runes t := by
  unfold runes
  simp only [List.length_cons, rangeRunes, decodeRune_ascii b t hb, List.drop_succ_cons,
    List.drop_zero]

theorem bytes_ascii_of_runes_ascii (s : GoString) (h : ∀ c ∈ runes s, c < 0x80) :
    ∀ b ∈ s, b < 0x80 := by
  induction s with
  | nil => simp
  | cons b t ih =>
    have hb : b < 0x80 := by
      by_contra hge
      have h1 := decodeRune_ge b t (by omega)
      have h2 := h (decodeRune (b :: t)).1 (by simp [runes, rangeRunes])
      omega
    rw [runes_cons_ascii b t hb] at h
    intro x hx
    rcases List.mem_cons.mp hx with rfl | hx
    · exact hb
    · exact ih (fun c hc => h c (List.mem_cons_of_mem _ hc)) x hx

/-- Fuel adequacy of the loop of `SafeChannelName`: with any fuel of at least the length
of the name the loop runs to the end of the name and returns the result of
`SafeChannelName`. -/
theorem safeChannelNameLoop_fuel (fuel : Nat) (name : GoString) (h : name.length ≤ fuel) :
    safeChannelNameLoop fuel name [] = SafeChannelName name := by
  rw [SafeChannelName_eq_map, safeChannelNameLoop_eq, rangeRunes_fuel fuel name h]
  simp

theorem SafeChannelName_ascii (name : GoString) :
    ∀ b ∈ SafeChannelName name, b < 0x80 := by
  intro b hb
  rw [SafeChannelName_eq_map] at hb
  obtain ⟨c, _, rfl⟩ := List.mem_map.mp hb
  exact allowed_lt _ (allowed_sanitizeRune c)

/-! ## The claims on `SafeChannelName` -/

/-- C1: for every input string `name`, every character of `SafeChannelName(name)`, be
it counted as a byte or as a rune, is in the allowed set: a letter, a digit or
one of `- _ = @ , .`. -/
theorem SafeChannelName_allowed (name : GoString) :
    (∀ b ∈ SafeChannelName name, allowed b = true) ∧
    (∀ c ∈ runes (SafeChannelName name), allowed c = true) := by
  have hb : ∀ b ∈ SafeChannelName name, allowed b = true := by
    intro b hb
    rw [SafeChannelName_eq_map] at hb
    obtain ⟨c, _, rfl⟩ := List.mem_map.mp hb
    exact allowed_sanitizeRune c
  refine ⟨hb, ?_⟩
  rw [runes_ascii _ (SafeChannelName_ascii name)]
  exact hb

/-- C1, at the name `a b` followed by the two bytes of `é`: the output
is `a__` and its byte `_` is allowed. -/
theorem SafeChannelName_allowed_witness :
    '_'.toNat ∈ SafeChannelName [0x61, 0x20, 0xC3, 0xA9] ∧ allowed '_'.toNat = true :=
  ⟨by decide, (SafeChannelName_allowed [0x61, 0x20, 0xC3, 0xA9]).1 '_'.toNat (by decide)⟩

/-- C9: `SafeChannelName(name)` is `name` transformed character by character (a
character being a rune, as `range` yields them): the output is the image of the
characters of the input, it has as many characters as the input, at every
position its character is the input character when that one is allowed and `_`
otherwise, a name made only of allowed characters is returned unchanged, and
`room#1 name!` becomes `room_1_name_`. -/
theorem SafeChannelName_charwise (name : GoString) :
    SafeChannelName name = (runes name).map sanitizeRune ∧
    (runes (SafeChannelName name)).length = (runes name).length ∧
    (∀ (i : Nat) (c : Nat), (runes name)[i]? = some c →
      (runes (SafeChannelName name))[i]? = some (if allowed c then c else '_'.toNat)) ∧
    ((∀ c ∈ runes name, allowed c = true) → SafeChannelName name = name) ∧
    SafeChannelName (lit "room#1 name!") = lit "room_1_name_" := by
  have hr : runes (SafeChannelName name) = (runes name).map sanitizeRune := by
    rw [runes_ascii _ (SafeChannelName_ascii name), SafeChannelName_eq_map]
  refine ⟨SafeChannelName_eq_map name, ?_, ?_, ?_, by decide⟩
  · rw [hr, List.length_map]
  · intro i c hc
    rw [hr, List.getElem?_map, hc]
    rfl
  · intro h
    have hb := bytes_ascii_of_runes_ascii name (fun c hc => allowed_lt c (h c hc))
    have hn := runes_ascii name hb
    rw [SafeChannelName_eq_map]
    conv_rhs => rw [← hn, ← List.map_id (runes name)]
    apply List.map_congr_left
    intro c hc
    exact sanitizeRune_of_allowed c (h c hc)

/-- C9, at the name `a-b`: all its characters are allowed and it is returned
unchanged. -/
theorem SafeChannelName_charwise_witness :
    (∀ c ∈ runes (lit "a-b"), allowed c = true) ∧ SafeChannelName (lit "a-b") = lit "a-b" :=
  ⟨by decide, (SafeChannelName_charwise (lit "a-b")).2.2.2.1 (by decide)⟩

/-- C10 as stated fails: the name `é`, two bytes in UTF-8, is one character for
`range`, and `SafeChannelName` returns `_`, of length 1 and not 2. -/
theorem SafeChannelName_length_counterexample :
    ¬ ((SafeChannelName [0xC3, 0xA9]).length = ([0xC3, 0xA9] : GoString).length) := by
  decide

/-- C10, amended: the length in bytes of `SafeChannelName(name)` is the number of
characters (runes, as `range` yields them) of `name`; it is at most the length
in bytes of `name`, and equal to it when every byte of `name` is ASCII. -/
theorem SafeChannelName_length (name : GoString) :
    (SafeChannelName name).length = (runes name).length ∧
    (SafeChannelName name).length ≤ name.length ∧
    ((∀ b ∈ name, b < 0x80) → (SafeChannelName name).length = name.length) := by
  have h1 : (SafeChannelName name).length = (runes name).length := by
    rw [SafeChannelName_eq_map, List.length_map]
  refine ⟨h1, ?_, ?_⟩
  · rw [h1]
    exact rangeRunes_length_le _ _
  · intro h
    rw [h1, runes_ascii name h]

/-- C10, amended, at the ASCII name `room#1 name!` of twelve bytes. -/
theorem SafeChannelName_length_witness :
    (∀ b ∈ lit "room#1 name!", b < 0x80) ∧
      (SafeChannelName (lit "room#1 name!")).length = (lit "room#1 name!").length :=
  ⟨by decide, (SafeChannelName_length (lit "room#1 name!")).2.2 (by decide)⟩

/-- Fuel adequacy of the loop of the JSON string encoder: two amounts of fuel of at
least the length of the string give the same text. -/
theorem jsonStringLoop_fuel_irrelevant (n : Nat) :
    ∀ (m : Nat) (s : GoString), s.length ≤ n → s.length ≤ m →
      jsonStringLoop n s = jsonStringLoop m s := by
  induction n with
  | zero =>
    intro m s hn _
    have : s = [] := List.eq_nil_of_length_eq_zero (by omega)
    subst this
    cases m <;> simp [jsonStringLoop]
  | succ n ih =>
    intro m s hn hm
    cases s with
    | nil => cases m <;> simp [jsonStringLoop]
    | cons b t =>
      cases m with
      | zero => simp at hm
      | succ m =>
        simp only [List.length_cons] at hn hm
        have hd := drop_decodeRune_length b t
        have e1 := ih m t (by omega) (by omega)
        have e2 := ih m ((b :: t).drop (decodeRune (b :: t)).2) (by omega) (by omega)
        simp only [jsonStringLoop, e1, e2]

/-- Fuel adequacy of `jsonString`: with any fuel of at least the length of the string
the loop gives the text that `jsonString` puts between the quotes. -/
theorem jsonStringLoop_fuel (fuel : Nat) (s : GoString) (h : s.length ≤ fuel) :
    lit "\x22" ++ jsonStringLoop fuel s ++ lit "\x22" = jsonString s := by
  unfold jsonString
  rw [jsonStringLoop_fuel_irrelevant fuel s.length s h (Nat.le_refl _)]

/-! ## Lemmas on `triggerEvent` -/

theorem jsonMarshalEvent_envelope (channel event d socketId : GoString) :
    pusherEventFields (envelope channel event d socketId) =
      Except.ok ([(lit "name", jsonString event), (lit "data", jsonString d),
        (lit "channel", jsonString channel)]
        ++ (if socketId.length = 0 then [] else [(lit "socket_id", jsonString socketId)])) ∧
    jsonMarshalEvent (envelope channel event d socketId) =
      Except.ok (renderObject ([(lit "name", jsonString event), (lit "data", jsonString d),
        (lit "channel", jsonString channel)]
        ++ (if socketId.length = 0 then [] else [(lit "socket_id", jsonString socketId)]))) := by
  simp [pusherEventFields, jsonMarshalEvent, envelope, jsonMarshal]

theorem appUrl_events (c : Context) :
    appUrl c ++ lit "/events" = baseUrl ++ specEventsPath (appId c) := by
  simp [appUrl, appPath, specEventsPath, List.append_assoc]

theorem authParams_effects (c : Context) (path body : GoString) :
    (authParams c path body).2.filter Effect.isPost = [] ∧
    (authParams c path body).2.filter Effect.isErrorf = [] ∧
    ∀ u ct b, Effect.Post u ct b ∉ (authParams c path body).2 := by
  simp [authParams, SignWithSecret, Effect.isPost, Effect.isErrorf]

/-- The effects of `triggerEvent` once the request is built: `log` is what was logged
before, and the rest depends on the answer of the transport. -/
theorem filter_isPost_outcome (c : Context) (log : List Effect) (url body : GoString)
    (hlog : log.filter Effect.isPost = []) :
    (match c.Post url (lit "application/json") body with
      | Except.error err =>
        ((some err, (log ++ [Effect.Post url (lit "application/json") body])
          ++ [Effect.Errorf (lit "Failed sending to pusher: " ++ err.msg)]) :
          Option GoError × List Effect)
      | Except.ok resp =>
        match resp.Body with
        | Except.error err =>
          (some err, (log ++ [Effect.Post url (lit "application/json") body]) ++ [Effect.Close])
        | Except.ok res =>
          if resp.StatusCode ≠ 200 then
            (none, (log ++ [Effect.Post url (lit "application/json") body])
              ++ [Effect.Errorf (lit "Unexpected status code: "
              ++ fmtInt resp.StatusCode ++ lit " with response: " ++ res), Effect.Close])
          else
            (none, (log ++ [Effect.Post url (lit "application/json") body])
              ++ [Effect.Close])).2.filter Effect.isPost =
      [Effect.Post url (lit "application/json") body] := by
  repeat' split
  all_goals simp [List.filter_append, hlog, Effect.isPost]

/-- The request of `triggerEvent`: when the payload is serialised to `d`, exactly one
request is sent, with the encoded envelope as its body. -/
theorem triggerEvent_posts (c : Context) (channel event : GoString) (data : GoValue)
    (socketId d : GoString) (h : jsonMarshal (orEmptyObject data) = Except.ok d) :
    ∃ body, jsonMarshalEvent (envelope channel event d socketId) = Except.ok body ∧
      (triggerEvent c channel event data socketId).2.filter Effect.isPost =
        [Effect.Post
          (baseUrl ++ specEventsPath (appId c) ++ lit "?"
            ++ (authParams c (specEventsPath (appId c)) body).1)
          (lit "application/json") body] := by
  obtain ⟨_, hbody⟩ := jsonMarshalEvent_envelope channel event d socketId
  refine ⟨_, hbody, ?_⟩
  have hp : appPath c ++ lit "/events" = specEventsPath (appId c) := by
    simp [appPath, specEventsPath]
  simp only [triggerEvent, h, hbody, appUrl_events, hp]
  exact filter_isPost_outcome c _ _ _ (authParams_effects c _ _).1

/-- The requests in the trace of `triggerEvent`: a request that was sent is the one
that the transport was asked to perform. -/
theorem triggerEvent_cases (c : Context) (channel event : GoString) (data : GoValue)
    (socketId : GoString) :
    (∃ err, triggerEvent c channel event data socketId = (some err, [])) ∨
    ∃ log url body, log.filter Effect.isPost = [] ∧ log.filter Effect.isErrorf = [] ∧
      (∀ u ct b, Effect.Post u ct b ∉ log) ∧
      triggerEvent c channel event data socketId =
        (let sent := log ++ [Effect.Post url (lit "application/json") body]
        match c.Post url (lit "application/json") body with
        | Except.error err =>
          (some err, sent ++ [Effect.Errorf (lit "Failed sending to pusher: " ++ err.msg)])
        | Except.ok resp =>
          match resp.Body with
          | Except.error err => (some err, sent ++ [Effect.Close])
          | Except.ok res =>
            if resp.StatusCode ≠ 200 then
              (none, sent ++ [Effect.Errorf (lit "Unexpected status code: "
                ++ fmtInt resp.StatusCode ++ lit " with response: " ++ res), Effect.Close])
            else
              (none, sent ++ [Effect.Close])) := by
  rcases h1 : jsonMarshal (orEmptyObject data) with e | d
  · left
    exact ⟨e, by simp only [triggerEvent, h1]⟩
  · rcases h2 : jsonMarshalEvent (envelope channel event d socketId) with e | body
    · left
      exact ⟨e, by simp only [triggerEvent, h1, h2]⟩
    · right
      obtain ⟨a1, a2, a3⟩ := authParams_effects c (appPath c ++ lit "/events") body
      exact ⟨(authParams c (appPath c ++ lit "/events") body).2,
        appUrl c ++ lit "/events" ++ lit "?" ++ (authParams c (appPath c ++ lit "/events") body).1,
        body, a1, a2, a3, by simp only [triggerEvent, h1, h2]⟩

/-! ## The claims on the signer and the publisher -/

/-- C2: for every app key, app secret, timestamp, path `P` and body `B`,
`authParams(P, B)` returns `Q` followed by `&auth_signature=` and the signature,
where `Q` is `auth_key=K&auth_timestamp=T&auth_version=1.0&body_md5=md5hex(B)`
and the signature is the hex encoding of HMAC-SHA256, keyed with the app secret,
of the canonical string `POST`, newline, `P`, newline, `Q`: the timestamp and
the body hash that are signed are the ones that are returned.  The string that
`SignWithSecret` is given (and logs) is that canonical string.  In the sample
context the query string is the one written out. -/
theorem authParams_signed_query (c : Context) (P B : GoString) :
    (authParams c P B).1 =
      specQuery (AppKey c) c.Now (c.Md5Hash B) ++ lit "&auth_signature="
        ++ hexEncode (c.hmacSha256 (appSecret c)
            (specCanonical P (specQuery (AppKey c) c.Now (c.Md5Hash B)))) ∧
    authParams c P B =
      ((specQuery (AppKey c) c.Now (c.Md5Hash B) ++ lit "&auth_signature=")
          ++ (SignWithSecret c (specCanonical P (specQuery (AppKey c) c.Now (c.Md5Hash B)))).1,
        (SignWithSecret c (specCanonical P (specQuery (AppKey c) c.Now (c.Md5Hash B)))).2) ∧
    (SignWithSecret c (specCanonical P (specQuery (AppKey c) c.Now (c.Md5Hash B)))).1 =
      hexEncode (c.hmacSha256 (appSecret c)
        (specCanonical P (specQuery (AppKey c) c.Now (c.Md5Hash B)))) ∧
    authParams (sampleContext (Except.ok sampleRejection)) (lit "/apps/1/events") sampleBody =
      (lit "auth_key=dk&auth_timestamp=1400000000&auth_version=1.0&body_md5=md5&auth_signature=ab",
        [Effect.Debugf (lit "Pusher signing POST\n/apps/1/events\nauth_key=dk&auth_timestamp=1400000000&auth_version=1.0&body_md5=md5 with key ds")]) := by
  refine ⟨?_, ?_, rfl, by decide⟩
  · simp [authParams, SignWithSecret, specQuery, specCanonical, List.append_assoc]
  · simp [authParams, SignWithSecret, specQuery, specCanonical, List.append_assoc]

/-- C3: for every call of `triggerEvent` whose serialisation succeeds, what is signed is
what is sent: exactly one request is handed to the transport, its body is the
encoded envelope, its URL is `baseUrl`, the path `/apps/<appId>/events`, `?` and
`authParams` of that same path and that same body, and the query string carries
the MD5 of that body and the signature of the canonical string built from that
path and that hash. -/
theorem triggerEvent_signs_what_it_sends (c : Context) (channel event : GoString)
    (data : GoValue) (socketId d : GoString)
    (h : jsonMarshal (orEmptyObject data) = Except.ok d) :
    ∃ body, jsonMarshalEvent (envelope channel event d socketId) = Except.ok body ∧
      (triggerEvent c channel event data socketId).2.filter Effect.isPost =
        [Effect.Post
          (baseUrl ++ specEventsPath (appId c) ++ lit "?"
            ++ (authParams c (specEventsPath (appId c)) body).1)
          (lit "application/json") body] ∧
      (authParams c (specEventsPath (appId c)) body).1 =
        specQuery (AppKey c) c.Now (c.Md5Hash body) ++ lit "&auth_signature="
          ++ hexEncode (c.hmacSha256 (appSecret c)
              (specCanonical (specEventsPath (appId c))
                (specQuery (AppKey c) c.Now (c.Md5Hash body)))) := by
  obtain ⟨body, hbody, hpost⟩ := triggerEvent_posts c channel event data socketId d h
  refine ⟨body, hbody, hpost, ?_⟩
  simp [authParams, SignWithSecret, specQuery, specCanonical, List.append_assoc]

/-- A nil pointer, map or slice stored in the interface is not the nil interface: the
test `data == nil` fails for it, and it is serialised as `null`. -/
theorem orEmptyObject_nilPtr :
    jsonMarshal (orEmptyObject GoValue.nilPtr) = Except.ok (lit "null") := rfl

theorem orEmptyObject_of_ne_nil (data : GoValue) (h : data ≠ GoValue.nil) :
    orEmptyObject data = data := by
  cases data <;> first | rfl | exact absurd rfl h

/-- The `data` member of the request of `triggerEvent`: when the payload, after the
replacement of a nil payload, is serialised to `d`, the one request that is sent
has the encoded envelope as its body, and the member `data` of that envelope is
the JSON string encoding of `d`. -/
theorem triggerEvent_data_member (c : Context) (channel event : GoString)
    (data : GoValue) (socketId d : GoString)
    (h : jsonMarshal (orEmptyObject data) = Except.ok d) :
    ∃ fields url, pusherEventFields (envelope channel event d socketId) = Except.ok fields ∧
      (triggerEvent c channel event data socketId).2.filter Effect.isPost =
        [Effect.Post url (lit "application/json") (renderObject fields)] ∧
      (lit "data", jsonString d) ∈ fields ∧
      (∀ v, (lit "data", v) ∈ fields → v = jsonString d) := by
  obtain ⟨hfields, hbody⟩ := jsonMarshalEvent_envelope channel event d socketId
  obtain ⟨body, hbody2, hpost⟩ := triggerEvent_posts c channel event data socketId d h
  rw [hbody] at hbody2
  cases hbody2
  refine ⟨_, _, hfields, hpost, ?_, ?_⟩
  · simp
  · intro v hv
    have hne1 : lit "data" ≠ lit "name" := by decide
    have hne2 : lit "data" ≠ lit "channel" := by decide
    have hne3 : lit "data" ≠ lit "socket_id" := by decide
    split at hv <;> simp [hne1, hne2, hne3] at hv <;> exact hv

/-- C4 as stated fails: a nil map (or pointer, or slice) passed as `data` is not the nil
interface, the test `data == nil` fails for it, and the `data` member of the
envelope that is sent is the string `null`, not `{}`. -/
theorem triggerEvent_data_double_encoded_counterexample :
    jsonMarshal GoValue.nilPtr = Except.ok (lit "null") ∧
    (triggerEvent (sampleContext (Except.ok sampleRejection)) (lit "ch") (lit "e")
        GoValue.nilPtr (lit "")).2.filter Effect.isPost =
      [Effect.Post sampleUrl (lit "application/json")
        (lit "\x7b\x22name\x22:\x22e\x22,\x22data\x22:\x22null\x22,\x22channel\x22:\x22ch\x22\x7d")] ∧
    (triggerEvent (sampleContext (Except.ok sampleRejection)) (lit "ch") (lit "e")
        GoValue.nilPtr (lit "")).2.filter Effect.isPost ≠
      [Effect.Post sampleUrl (lit "application/json") sampleBody] := by
  refine ⟨rfl, by decide, by decide⟩

/-- C4, amended: for every payload other than the nil interface, serialised to `d`, the
one request of `triggerEvent` carries the encoded envelope, whose member `data`
is the string `d` itself, sent as a JSON string (the encoding of `d` between
double quotes) and not as a nested object; when the payload is the nil
interface it is replaced by an empty map and that member is the encoding of the
string `{}`, which is not `null`; the payload `{"x":1}` gives the string
`{"x":1}`, sent as `"{\"x\":1}"`. -/
theorem triggerEvent_data_double_encoded (c : Context) (channel event : GoString)
    (data : GoValue) (socketId d : GoString)
    (hdata : data ≠ GoValue.nil)
    (h : jsonMarshal data = Except.ok d) :
    (envelope channel event d socketId).Data = GoValue.str d ∧
    (∃ fields url, pusherEventFields (envelope channel event d socketId) = Except.ok fields ∧
      (triggerEvent c channel event data socketId).2.filter Effect.isPost =
        [Effect.Post url (lit "application/json") (renderObject fields)] ∧
      (lit "data", jsonString d) ∈ fields ∧
      (∀ v, (lit "data", v) ∈ fields → v = jsonString d)) ∧
    jsonString d = lit "\x22" ++ jsonStringLoop d.length d ++ lit "\x22" ∧
    (∃ fields url,
      pusherEventFields (envelope channel event (lit "\x7b\x7d") socketId) = Except.ok fields ∧
      (triggerEvent c channel event GoValue.nil socketId).2.filter Effect.isPost =
        [Effect.Post url (lit "application/json") (renderObject fields)] ∧
      (lit "data", jsonString (lit "\x7b\x7d")) ∈ fields ∧
      (∀ v, (lit "data", v) ∈ fields → v = jsonString (lit "\x7b\x7d"))) ∧
    jsonString (lit "\x7b\x7d") = lit "\x22\x7b\x7d\x22" ∧
    lit "\x7b\x7d" ≠ lit "null" ∧
    (triggerEvent (sampleContext (Except.ok sampleRejection)) (lit "ch") (lit "e")
        GoValue.nil (lit "")).2.filter Effect.isPost =
      [Effect.Post sampleUrl (lit "application/json") sampleBody] ∧
    jsonMarshal (GoValue.map [(lit "x", GoValue.int 1)]) =
      Except.ok (lit "\x7b\x22x\x22:1\x7d") ∧
    jsonString (lit "\x7b\x22x\x22:1\x7d") = lit "\x22\x7b\x5c\x22x\x5c\x22:1\x7d\x22" ∧
    (triggerEvent (sampleContext (Except.ok sampleRejection)) (lit "ch") (lit "e")
        (GoValue.map [(lit "x", GoValue.int 1)]) (lit "")).2.filter Effect.isPost =
      [Effect.Post sampleUrl (lit "application/json")
        (lit "\x7b\x22name\x22:\x22e\x22,\x22data\x22:\x22\x7b\x5c\x22x\x5c\x22:1\x7d\x22,\x22channel\x22:\x22ch\x22\x7d")] := by
  have h1 : jsonMarshal (orEmptyObject data) = Except.ok d := by
    rw [orEmptyObject_of_ne_nil data hdata]
    exact h
  have h2 : jsonMarshal (orEmptyObject GoValue.nil) = Except.ok (lit "\x7b\x7d") := rfl
  exact ⟨rfl, triggerEvent_data_member c channel event data socketId d h1, rfl,
    triggerEvent_data_member c channel event GoValue.nil socketId _ h2, rfl, by decide,
    by decide, rfl, rfl, by decide⟩

/-- C7: for every socket id `s`, the envelope that `triggerEvent` serialises and sends
has a member `socket_id` exactly when `s` is not empty, and its value is then
the encoding of `s`; `TriggerEvent` is `TriggerEventExcluding` with the empty
socket id, and its envelope has no member `socket_id`. -/
theorem triggerEvent_socket_id (c : Context) (channel event : GoString)
    (data : GoValue) (s d : GoString)
    (h : jsonMarshal (orEmptyObject data) = Except.ok d) :
    (∃ fields url, pusherEventFields (envelope channel event d s) = Except.ok fields ∧
      (triggerEvent c channel event data s).2.filter Effect.isPost =
        [Effect.Post url (lit "application/json") (renderObject fields)] ∧
      (lit "socket_id" ∈ fields.map Prod.fst ↔ s ≠ []) ∧
      (s ≠ [] → (lit "socket_id", jsonString s) ∈ fields) ∧
      (∀ v, (lit "socket_id", v) ∈ fields → v = jsonString s)) ∧
    TriggerEvent c channel event data = TriggerEventExcluding c channel event data (lit "") ∧
    (∃ fields url, pusherEventFields (envelope channel event d noSocketId) = Except.ok fields ∧
      (TriggerEvent c channel event data).2.filter Effect.isPost =
        [Effect.Post url (lit "application/json") (renderObject fields)] ∧
      lit "socket_id" ∉ fields.map Prod.fst) := by
  have hne1 : lit "socket_id" ≠ lit "name" := by decide
  have hne2 : lit "socket_id" ≠ lit "data" := by decide
  have hne3 : lit "socket_id" ≠ lit "channel" := by decide
  refine ⟨?_, rfl, ?_⟩
  · obtain ⟨hfields, hbody⟩ := jsonMarshalEvent_envelope channel event d s
    obtain ⟨body, hbody2, hpost⟩ := triggerEvent_posts c channel event data s d h
    rw [hbody] at hbody2
    cases hbody2
    refine ⟨_, _, hfields, hpost, ?_, ?_, ?_⟩
    · cases s <;> simp [hne1, hne2, hne3]
    · intro hs
      cases s with
      | nil => exact absurd rfl hs
      | cons a t => simp
    · intro v hv
      cases s
      · simp [hne1, hne2, hne3] at hv
      · simp [hne1, hne2, hne3] at hv
        exact hv
  · obtain ⟨hfields, hbody⟩ := jsonMarshalEvent_envelope channel event d noSocketId
    obtain ⟨body, hbody2, hpost⟩ := triggerEvent_posts c channel event data noSocketId d h
    rw [hbody] at hbody2
    cases hbody2
    refine ⟨_, _, hfields, hpost, ?_⟩
    simp [noSocketId, lit, hne1, hne2, hne3]

/-- C8: for every pair of answers of `IsLocal` and `IsProd`, `appId`, `AppKey` and
`appSecret` resolve to the triple of one environment: the dev triple when local,
otherwise the production triple when production, otherwise the staging
triple. -/
theorem credentials_same_environment (c : Context) :
    (appId c, AppKey c, appSecret c) =
      if c.IsLocal then
        (c.integrations.PusherDevAppId, c.integrations.PusherDevKey,
          c.integrations.PusherDevSecret)
      else if c.IsProd then
        (c.integrations.PusherProdAppId, c.integrations.PusherProdKey,
          c.integrations.PusherProdSecret)
      else
        (c.integrations.PusherStagingAppId, c.integrations.PusherStagingKey,
          c.integrations.PusherStagingSecret) := by
  unfold appId AppKey appSecret
  cases c.IsLocal <;> cases c.IsProd <;> rfl

/-- A request in the trace of `triggerEvent` is the one the transport was asked to
perform; what follows it in the trace is decided by the answer. -/
theorem triggerEvent_outcome (c : Context) (channel event : GoString) (data : GoValue)
    (socketId url ct body : GoString)
    (hsent : Effect.Post url ct body ∈ (triggerEvent c channel event data socketId).2) :
    ∃ log, log.filter Effect.isPost = [] ∧ log.filter Effect.isErrorf = [] ∧
      ct = lit "application/json" ∧
      triggerEvent c channel event data socketId =
        (match c.Post url ct body with
        | Except.error err =>
          (some err, (log ++ [Effect.Post url ct body])
            ++ [Effect.Errorf (lit "Failed sending to pusher: " ++ err.msg)])
        | Except.ok resp =>
          match resp.Body with
          | Except.error err => (some err, (log ++ [Effect.Post url ct body]) ++ [Effect.Close])
          | Except.ok res =>
            if resp.StatusCode ≠ 200 then
              (none, (log ++ [Effect.Post url ct body])
                ++ [Effect.Errorf (lit "Unexpected status code: "
                ++ fmtInt resp.StatusCode ++ lit " with response: " ++ res), Effect.Close])
            else
              (none, (log ++ [Effect.Post url ct body]) ++ [Effect.Close])) := by
  rcases triggerEvent_cases c channel event data socketId with ⟨err, he⟩ | ⟨log, u, b, h1, h2, h3, he⟩
  · rw [he] at hsent
    simp at hsent
  · have key : url = u ∧ ct = lit "application/json" ∧ body = b := by
      rw [he] at hsent
      have h3' := h3 url ct body
      revert hsent
      simp only
      repeat' split
      all_goals
        intro hsent
        simp [h3'] at hsent
        simp [hsent]
    obtain ⟨rfl, rfl, rfl⟩ := key
    exact ⟨log, h1, h2, rfl, he⟩

/-- C5 as stated fails: a transport that answers status 200 without error, the body of
the answer failing to be read (`unexpected EOF`), makes `triggerEvent` return
that error and not `nil`. -/
theorem triggerEvent_response_counterexample :
    (sampleContext (Except.ok sampleTruncated)).Post sampleUrl (lit "application/json")
        sampleBody = Except.ok sampleTruncated ∧
    triggerEvent (sampleContext (Except.ok sampleTruncated)) (lit "ch") (lit "e")
        GoValue.nil (lit "") =
      (some ⟨lit "unexpected EOF"⟩,
        [Effect.Debugf (lit "Pusher signing POST\n/apps/1/events\nauth_key=dk&auth_timestamp=1400000000&auth_version=1.0&body_md5=md5 with key ds"),
          Effect.Post sampleUrl (lit "application/json") sampleBody,
          Effect.Close]) ∧
    (triggerEvent (sampleContext (Except.ok sampleTruncated)) (lit "ch") (lit "e")
        GoValue.nil (lit "")).1 ≠ none := by
  refine ⟨rfl, by decide, by decide⟩

/-- C5, amended: whenever the transport returns a response without error and the body
of the response is read without error, `triggerEvent` returns `nil` whatever the
status code; for a status code other than 200 it logs one error message, which
carries the status code and the body of the response, and for status 200 it
logs no error message.  When reading the body of the response fails,
`triggerEvent` returns that read error, whatever the status code, and logs no
error message. -/
theorem triggerEvent_response (c : Context) (channel event : GoString) (data : GoValue)
    (socketId url ct body : GoString) (resp : Response)
    (hsent : Effect.Post url ct body ∈ (triggerEvent c channel event data socketId).2)
    (hpost : c.Post url ct body = Except.ok resp) :
    (∀ res, resp.Body = Except.ok res →
      (triggerEvent c channel event data socketId).1 = none ∧
      (resp.StatusCode ≠ 200 →
        (triggerEvent c channel event data socketId).2.filter Effect.isErrorf =
          [Effect.Errorf (lit "Unexpected status code: " ++ fmtInt resp.StatusCode
            ++ lit " with response: " ++ res)]) ∧
      (resp.StatusCode = 200 →
        (triggerEvent c channel event data socketId).2.filter Effect.isErrorf = [])) ∧
    (∀ err, resp.Body = Except.error err →
      (triggerEvent c channel event data socketId).1 = some err ∧
      (triggerEvent c channel event data socketId).2.filter Effect.isErrorf = []) := by
  obtain ⟨log, _, h2, _, he⟩ := triggerEvent_outcome c channel event data socketId url ct body hsent
  rw [he]
  constructor
  · intro res hread
    simp only [hpost, hread]
    by_cases hs : resp.StatusCode = 200
    · simp [hs, List.filter_append, h2, Effect.isErrorf]
    · simp [hs, List.filter_append, h2, Effect.isErrorf]
  · intro err hread
    simp only [hpost, hread]
    simp [List.filter_append, h2, Effect.isErrorf]

/-- C6: for every transport error `e` returned by the POST, `triggerEvent` returns
exactly `e`, has sent the request once, and its only error message is
`Failed sending to pusher: ` followed by the text of `e`: no message
`Unexpected status code` is logged. -/
theorem triggerEvent_transport_error (c : Context) (channel event : GoString)
    (data : GoValue) (socketId url ct body : GoString) (e : GoError)
    (hsent : Effect.Post url ct body ∈ (triggerEvent c channel event data socketId).2)
    (hpost : c.Post url ct body = Except.error e) :
    (triggerEvent c channel event data socketId).1 = some e ∧
    (triggerEvent c channel event data socketId).2.filter Effect.isPost =
      [Effect.Post url ct body] ∧
    (triggerEvent c channel event data socketId).2.filter Effect.isErrorf =
      [Effect.Errorf (lit "Failed sending to pusher: " ++ e.msg)] ∧
    (∀ m, Effect.Errorf m ∈ (triggerEvent c channel event data socketId).2 →
      ¬ (lit "Unexpected status code" <+: m)) := by
  obtain ⟨log, h1, h2, _, he⟩ := triggerEvent_outcome c channel event data socketId url ct body hsent
  rw [he]
  simp only [hpost]
  refine ⟨trivial, ?_, ?_, ?_⟩
  · simp [List.filter_append, h1, Effect.isPost]
  · simp [List.filter_append, h2, Effect.isErrorf]
  · intro m hm
    have hlog : Effect.Errorf m ∉ log := by
      intro hin
      have : Effect.Errorf m ∈ log.filter Effect.isErrorf :=
        List.mem_filter.mpr ⟨hin, rfl⟩
      rw [h2] at this
      simp at this
    simp [hlog] at hm
    subst hm
    simp [lit]

/-- C3, at the event `new_message` on the channel `notifications_1` with the payload
`{"text":"hi"}`, in a context whose transport answers 403. -/
theorem triggerEvent_signs_what_it_sends_witness :
    jsonMarshal (orEmptyObject sampleData) = Except.ok sampleDataBytes ∧
    ∃ body, jsonMarshalEvent
        (envelope (lit "notifications_1") (lit "new_message") sampleDataBytes (lit "")) =
          Except.ok body ∧
      (triggerEvent (sampleContext (Except.ok sampleRejection)) (lit "notifications_1")
          (lit "new_message") sampleData (lit "")).2.filter Effect.isPost =
        [Effect.Post
          (baseUrl ++ specEventsPath (appId (sampleContext (Except.ok sampleRejection)))
            ++ lit "?" ++ (authParams (sampleContext (Except.ok sampleRejection))
              (specEventsPath (appId (sampleContext (Except.ok sampleRejection)))) body).1)
          (lit "application/json") body] ∧
      (authParams (sampleContext (Except.ok sampleRejection))
          (specEventsPath (appId (sampleContext (Except.ok sampleRejection)))) body).1 =
        specQuery (AppKey (sampleContext (Except.ok sampleRejection)))
            (sampleContext (Except.ok sampleRejection)).Now
            ((sampleContext (Except.ok sampleRejection)).Md5Hash body)
          ++ lit "&auth_signature="
          ++ hexEncode ((sampleContext (Except.ok sampleRejection)).hmacSha256
              (appSecret (sampleContext (Except.ok sampleRejection)))
              (specCanonical (specEventsPath (appId (sampleContext (Except.ok sampleRejection))))
                (specQuery (AppKey (sampleContext (Except.ok sampleRejection)))
                  (sampleContext (Except.ok sampleRejection)).Now
                  ((sampleContext (Except.ok sampleRejection)).Md5Hash body)))) :=
  ⟨rfl, triggerEvent_signs_what_it_sends (sampleContext (Except.ok sampleRejection))
    (lit "notifications_1") (lit "new_message") sampleData (lit "") sampleDataBytes rfl⟩

/-- C4, amended, at the payload `{"text":"hi"}`, which is not the nil interface and is
serialised to `{"text":"hi"}`: the request carries the envelope whose member
`data` is the encoding of that string. -/
theorem triggerEvent_data_double_encoded_witness :
    (sampleData ≠ GoValue.nil ∧ jsonMarshal sampleData = Except.ok sampleDataBytes) ∧
    ∃ fields url,
      pusherEventFields
        (envelope (lit "notifications_1") (lit "new_message") sampleDataBytes (lit "")) =
          Except.ok fields ∧
      (triggerEvent (sampleContext (Except.ok sampleRejection)) (lit "notifications_1")
          (lit "new_message") sampleData (lit "")).2.filter Effect.isPost =
        [Effect.Post url (lit "application/json") (renderObject fields)] ∧
      (lit "data", jsonString sampleDataBytes) ∈ fields ∧
      (∀ v, (lit "data", v) ∈ fields → v = jsonString sampleDataBytes) :=
  ⟨⟨by simp [sampleData], rfl⟩,
    (triggerEvent_data_double_encoded (sampleContext (Except.ok sampleRejection))
      (lit "notifications_1") (lit "new_message") sampleData (lit "") sampleDataBytes
      (by simp [sampleData]) rfl).2.1⟩

/-- C5, amended, at a transport that answers status 403 with the body `no` (the call
returns `nil` and logs the status code and the body) and at a transport that
answers status 403 with a body that cannot be read (the call returns the read
error and logs no error message). -/
theorem triggerEvent_response_witness :
    ((Effect.Post sampleUrl (lit "application/json") sampleBody ∈
        (triggerEvent (sampleContext (Except.ok sampleRejection)) (lit "ch") (lit "e")
          GoValue.nil (lit "")).2 ∧
      (sampleContext (Except.ok sampleRejection)).Post sampleUrl (lit "application/json")
        sampleBody = Except.ok sampleRejection ∧
      sampleRejection.Body = Except.ok (lit "no")) ∧
    (triggerEvent (sampleContext (Except.ok sampleRejection)) (lit "ch") (lit "e")
        GoValue.nil (lit "")).1 = none ∧
    (triggerEvent (sampleContext (Except.ok sampleRejection)) (lit "ch") (lit "e")
        GoValue.nil (lit "")).2.filter Effect.isErrorf =
      [Effect.Errorf (lit "Unexpected status code: 403 with response: no")]) ∧
    ((Effect.Post sampleUrl (lit "application/json") sampleBody ∈
        (triggerEvent (sampleContext (Except.ok sampleTruncatedRejection)) (lit "ch") (lit "e")
          GoValue.nil (lit "")).2 ∧
      (sampleContext (Except.ok sampleTruncatedRejection)).Post sampleUrl
        (lit "application/json") sampleBody = Except.ok sampleTruncatedRejection ∧
      sampleTruncatedRejection.Body = Except.error ⟨lit "urlfetch: truncated body"⟩) ∧
    (triggerEvent (sampleContext (Except.ok sampleTruncatedRejection)) (lit "ch") (lit "e")
        GoValue.nil (lit "")).1 = some ⟨lit "urlfetch: truncated body"⟩ ∧
    (triggerEvent (sampleContext (Except.ok sampleTruncatedRejection)) (lit "ch") (lit "e")
        GoValue.nil (lit "")).2.filter Effect.isErrorf = []) :=
  ⟨⟨⟨by decide, rfl, rfl⟩,
    ((triggerEvent_response (sampleContext (Except.ok sampleRejection)) (lit "ch") (lit "e")
      GoValue.nil (lit "") sampleUrl (lit "application/json") sampleBody sampleRejection
      (by decide) rfl).1 (lit "no") rfl).1,
    ((triggerEvent_response (sampleContext (Except.ok sampleRejection)) (lit "ch") (lit "e")
      GoValue.nil (lit "") sampleUrl (lit "application/json") sampleBody sampleRejection
      (by decide) rfl).1 (lit "no") rfl).2.1 (by decide)⟩,
    ⟨by decide, rfl, rfl⟩,
    (triggerEvent_response (sampleContext (Except.ok sampleTruncatedRejection)) (lit "ch")
      (lit "e") GoValue.nil (lit "") sampleUrl (lit "application/json") sampleBody
      sampleTruncatedRejection (by decide) rfl).2 ⟨lit "urlfetch: truncated body"⟩ rfl⟩

/-- C6, at a transport that fails with `connection refused`: the call returns that
error. -/
theorem triggerEvent_transport_error_witness :
    (Effect.Post sampleUrl (lit "application/json") sampleBody ∈
        (triggerEvent (sampleContext (Except.error sampleFailure)) (lit "ch") (lit "e")
          GoValue.nil (lit "")).2 ∧
      (sampleContext (Except.error sampleFailure)).Post sampleUrl (lit "application/json")
        sampleBody = Except.error sampleFailure) ∧
    (triggerEvent (sampleContext (Except.error sampleFailure)) (lit "ch") (lit "e")
        GoValue.nil (lit "")).1 = some sampleFailure :=
  ⟨⟨by decide, rfl⟩,
    (triggerEvent_transport_error (sampleContext (Except.error sampleFailure)) (lit "ch")
      (lit "e") GoValue.nil (lit "") sampleUrl (lit "application/json") sampleBody
      sampleFailure (by decide) rfl).1⟩

/-- C7, at the payload `{"text":"hi"}` and the socket id `1.2`: `TriggerEvent` is
`TriggerEventExcluding` with the empty socket id. -/
theorem triggerEvent_socket_id_witness :
    jsonMarshal (orEmptyObject sampleData) = Except.ok sampleDataBytes ∧
    TriggerEvent (sampleContext (Except.ok sampleRejection)) (lit "ch") (lit "e") sampleData =
      TriggerEventExcluding (sampleContext (Except.ok sampleRejection)) (lit "ch") (lit "e")
        sampleData (lit "") :=
  ⟨rfl, (triggerEvent_socket_id (sampleContext (Except.ok sampleRejection)) (lit "ch")
    (lit "e") sampleData (lit "1.2") sampleDataBytes rfl).2.1⟩

end Pusher
